import Mathlib

/-!
Verification development for dockerfu (src/index.js).

dockerfu reconciles running docker container metadata with a hipache
reverse-proxy routing table held in redis.  The two commands are
sync (derive routing keys from container image names and exposed ports,
then rewrite the corresponding route entries) and show (cross-reference
stored route entries against a live container index).

The definitions below are a shallow embedding of the JavaScript in
src/index.js.  JavaScript strings are Lean strings; the JavaScript
single-character split is modelled explicitly (jsSplit); docker numeric
ports are Nat, with 0 as the sentinel for an unpublished public port and
the empty string as the sentinel for a missing bind address, following
the data model of the design document.  Fallible redis operations are
modelled with explicit error oracles, and process.exit with dedicated
outcome types.
-/

namespace Dockerfu

/-- Model of the JavaScript s.split(sep) for a one-character separator,
on the character list of the string.  JavaScript split never returns an
empty array: splitting the empty string yields one empty piece. -/
def jsSplitList (sep : Char) : List Char → List (List Char)
  | [] => [[]]
  | c :: rest =>
    let r := jsSplitList sep rest
    if c = sep then [] :: r
    else
      match r with
      | s :: ss => (c :: s) :: ss
      | [] => [[c]]

/-- JavaScript s.split(sep) for a one-character separator. -/
def jsSplit (sep : Char) (s : String) : List String :=
  (jsSplitList sep s.toList).map (fun cs => String.mk cs)

/-- One element of a docker container Ports array: bind address (IP),
private (in-container) port and public (host) port.  PublicPort 0 and
IP empty model an unpublished binding. -/
structure PortBinding where
  IP : String
  PrivatePort : Nat
  PublicPort : Nat
deriving DecidableEq

/-- A docker container as consumed by dockerfu: id, image reference and
ordered port bindings, plus the human-readable status string shown by
the show command. -/
structure ContainerDescriptor where
  Id : String
  Image : String
  Ports : List PortBinding
  Status : String
deriving DecidableEq

/-- The configuration values consumed by the core logic (webPorts,
prefixMaps and exceptionMaps are the raw comma-separated strings, as in
DEFAULT_CONFIG; they are parsed at use sites exactly as in the code). -/
structure Config where
  hipacheBackend : String
  webPorts : String
  prefixMaps : String
  exceptionMaps : String
deriving DecidableEq

/-- DEFAULT_CONFIG of src/index.js, restricted to the fields the core
logic reads. -/
def defaultConfig : Config :=
  { hipacheBackend := ("http://127.0.0.1")
  , webPorts := ("8080,80,3000")
  , prefixMaps := ("frozenridge:frozenridge.co,stridercd:stridercd.com")
  , exceptionMaps := ("frozenridge/gitbackups:gitbackups.com,frozenridge/gitbackups:www.gitbackups.com") }

/-- The loop body of findHttpPorts: scan the bindings in order and
return the public port of the first binding whose public port is
nonzero and whose private port, rendered in decimal, is a member of the
configured web-port list.  false in the JavaScript is Option.none here. -/
def findHttpPortsGo (webPorts : List String) : List PortBinding → Option Nat
  | [] => none
  | p :: ps =>
    if p.PublicPort != 0 && webPorts.contains (toString p.PrivatePort) then
      some p.PublicPort
    else
      findHttpPortsGo webPorts ps

/-- findHttpPorts of src/index.js (the Port Selector, called
selectPublicPort in the design document): splits config.webPorts on
commas and scans the bindings. -/
def findHttpPorts (cfg : Config) (ports : List PortBinding) : Option Nat :=
  findHttpPortsGo (jsSplit ',' cfg.webPorts) ports

/-- parseMaps of src/index.js: split on commas, then split every piece
on colons.  Entries are kept as raw string lists, accessed positionally
as in the code. -/
def parseMaps (m : String) : List (List String) :=
  (jsSplit ',' m).map (fun map => jsSplit ':' map)

/-- The routing keys the sync command derives for one container image,
in the order of the createRoute calls of src/index.js: first the
exception-map loop, which returns on the first entry whose source
equals the tag-stripped image; otherwise the prefix pass, which splits
the image on slashes, requires exactly two segments, takes the first
prefix-map entry matching the namespace and produces the subdomain key,
plus the www and root keys when the tag-stripped repo segment is www or
web.  Missing positional entries are modelled as the string undefined,
matching JavaScript string coercion in concatenation. -/
def containerKeys (exceptionMaps prefixMaps : List (List String)) (image : String) : List String :=
  let bare := (jsSplit ':' image).headD ("")
  match exceptionMaps.find? (fun e => e.headD ("") == bare) with
  | some e => [e.getD 1 ("undefined")]
  | none =>
    let img := jsSplit '/' image
    if img.length = 2 then
      match prefixMaps.find? (fun m => m.headD ("") == img.headD ("")) with
      | none => []
      | some m =>
        let domain := m.getD 1 ("undefined")
        let subdomain := (jsSplit ':' (img.getD 1 (""))).headD ("")
        if subdomain = "www" ∨ subdomain = "web" then
          [subdomain ++ "." ++ domain, "www." ++ domain, domain]
        else
          [subdomain ++ "." ++ domain]
    else []

example : jsSplit ',' ("8080,80,3000") = ["8080", "80", "3000"] := by decide

example : parseMaps defaultConfig.prefixMaps =
    [["frozenridge", "frozenridge.co"], ["stridercd", "stridercd.com"]] := by decide

example :
    containerKeys (parseMaps defaultConfig.exceptionMaps) (parseMaps defaultConfig.prefixMaps)
      ("frozenridge/foo") = ["foo.frozenridge.co"] := by decide

example :
    containerKeys (parseMaps defaultConfig.exceptionMaps) (parseMaps defaultConfig.prefixMaps)
      ("frozenridge/www:latest") =
      ["www.frozenridge.co", "www.frozenridge.co", "frozenridge.co"] := by decide

example : findHttpPorts defaultConfig [⟨"0.0.0.0", 8080, 9001⟩] = some 9001 := by decide

example : findHttpPorts defaultConfig [⟨"0.0.0.0", 22, 2222⟩] = none := by decide

/-- The redis key-value store, restricted to the list values dockerfu
uses: every key holds an ordered list of strings, absent keys hold the
empty list. -/
def Store := String → List String

/-- redis DEL of one key. -/
def redisDel (s : Store) (key : String) : Store :=
  fun k => if k = key then [] else s k

/-- redis RPUSH of one value onto one key. -/
def redisRpush (s : Store) (key v : String) : Store :=
  fun k => if k = key then s k ++ [v] else s k

/-- The atomic multi transaction of createRoute in src/index.js:
delete the entry at frontend:k, then push the routing key and the
backend address, in that order. -/
def writeRoute (s : Store) (k backend : String) : Store :=
  redisRpush (redisRpush (redisDel s ("frontend:" ++ k)) ("frontend:" ++ k) k)
    ("frontend:" ++ k) backend

/-- Executing a list of derived (routing key, backend) write operations
in order, assuming every write succeeds. -/
def applyOps (s : Store) : List (String × String) → Store
  | [] => s
  | (k, b) :: rest => applyOps (writeRoute s k b) rest

/-- The operations the sync command derives for one container: no
routing keys means no operations; otherwise the public web port is
selected, and its absence is the fatal createRoute error reporting the
container id (the JavaScript logs the id and calls process.exit(1)).
On success, one (key, backend) pair per routing key, with backend
hipacheBackend : port as in createRoute. -/
def deriveContainer (cfg : Config) (c : ContainerDescriptor) :
    Except String (List (String × String)) :=
  match containerKeys (parseMaps cfg.exceptionMaps) (parseMaps cfg.prefixMaps) c.Image with
  | [] => Except.ok []
  | keys =>
    match findHttpPorts cfg c.Ports with
    | none => Except.error c.Id
    | some port =>
        Except.ok (keys.map (fun k => (k, cfg.hipacheBackend ++ ":" ++ toString port)))

/-- The operations sync derives across the whole container snapshot, in
snapshot order; the first container whose route creation hits a missing
web port aborts the whole derivation (process.exit(1) fires during the
forEach, before any write is executed). -/
def deriveOps (cfg : Config) : List ContainerDescriptor → Except String (List (String × String))
  | [] => Except.ok []
  | c :: rest =>
    match deriveContainer cfg c with
    | Except.error e => Except.error e
    | Except.ok ops =>
      match deriveOps cfg rest with
      | Except.error e => Except.error e
      | Except.ok more => Except.ok (ops ++ more)

/-- Executing the derived writes in series against a store whose writes
may fail.  The oracle werr gives the error, if any, of the write for a
given key and backend; a failed multi is atomic, so the store is left
as it was before that write, and the remaining writes are not executed
(async.series stops at the first error). -/
def execWrites (werr : String → String → Option String) :
    Store → List (String × String) → Store × Option String
  | s, [] => (s, none)
  | s, (k, b) :: rest =>
    match werr k b with
    | some e => (s, some e)
    | none => execWrites werr (writeRoute s k b) rest

/-- Process-level outcome of the sync command, with the store it leaves
behind: exitZero is the process.exit(0) of the nothing-to-sync branch,
exitOne the process.exit(1) of a missing web port or a failed write,
and synced the success path that invokes the continuation. -/
inductive SyncResult where
  | exitZero (s : Store)
  | exitOne (msg : String) (s : Store)
  | synced (s : Store)

/-- The store left behind by a sync outcome. -/
def finalStore : SyncResult → Store
  | SyncResult.exitZero s => s
  | SyncResult.exitOne _ s => s
  | SyncResult.synced s => s

/-- The sync command of src/index.js over a container snapshot: derive
all operations (a missing web port exits with the offending container
id before anything is written), exit cleanly when there is nothing to
sync, otherwise run the writes in series, exiting on the first write
error. -/
def syncRun (cfg : Config) (werr : String → String → Option String) (s : Store)
    (snapshot : List ContainerDescriptor) : SyncResult :=
  match deriveOps cfg snapshot with
  | Except.error cid => SyncResult.exitOne cid s
  | Except.ok [] => SyncResult.exitZero s
  | Except.ok ops =>
    match execWrites werr s ops with
    | (s2, some e) => SyncResult.exitOne e s2
    | (s2, none) => SyncResult.synced s2

/-- The loop body of lookupContainers in the show command: scan the
bindings in order and return the public port of the first binding whose
bind address is nonempty and whose private port, rendered in decimal,
is in the configured web-port list.  Note the condition on the bind
address: this is the indexing rule actually used by show. -/
def indexPortGo (webPorts : List String) : List PortBinding → Option Nat
  | [] => none
  | p :: ps =>
    if p.IP != "" && webPorts.contains (toString p.PrivatePort) then
      some p.PublicPort
    else
      indexPortGo webPorts ps

/-- The live-container index built by lookupContainers: for each
container, the first matching binding (the loop breaks after it) maps
that public port to the container; later containers overwrite earlier
ones on the same port.  Keys are the decimal renderings of the ports,
since JavaScript object keys are strings. -/
def buildIndex (cfg : Config) (cs : List ContainerDescriptor) :
    String → Option ContainerDescriptor :=
  cs.foldl
    (fun idx f =>
      match indexPortGo (jsSplit ',' cfg.webPorts) f.Ports with
      | some port => fun key => if key = toString port then some f else idx key
      | none => idx)
    (fun _ => none)

/-- The two failure modes of lookupRoute in the show command: a redis
error passed to the callback, and the JavaScript TypeError thrown when
the stored list has no second element (res[1] is undefined and
undefined has no split method). -/
inductive ShowError where
  | storeError (msg : String)
  | typeError (msg : String)
deriving DecidableEq

/-- The message of the TypeError thrown by res[1].split when the stored
list has fewer than two elements. -/
def undefinedSplitMsg : String := "TypeError: cannot call method split of undefined"

/-- lookupRoute of src/index.js: read the stored list of the key; a
redis error goes to the callback; otherwise res[1] must exist (else the
TypeError above is thrown), its third colon-separated component is the
forward port, which is looked up in the live-container index, and the
emitted row is the key, the backend address, and either the container
status or the literal down marker.  The dead local containerName of the
source is omitted. -/
def lookupRoute (idx : String → Option ContainerDescriptor)
    (read : String → Except String (List String)) (k : String) :
    Except ShowError (String × String × String) :=
  match read k with
  | Except.error e => Except.error (ShowError.storeError e)
  | Except.ok res =>
    match res with
    | _ :: r1 :: _ =>
      let forwardPort := (jsSplit ':' r1).getD 2 ("undefined")
      let status :=
        match idx forwardPort with
        | some container => container.Status
        | none => "! Down !"
      Except.ok (k, r1, status)
    | _ => Except.error (ShowError.typeError undefinedSplitMsg)

/-- Outcome of the show command: success prints the accumulated table
and invokes the continuation (the done function of the source ignores
any error argument), crash is an uncaught TypeError that kills the
process before the table is printed. -/
inductive ShowOutcome where
  | success (rows : List (String × String × String))
  | crash (msg : String)
deriving DecidableEq

/-- The show command over an enumerated key list (redis KEYS *; its
order is store-dependent): route lookups complete in key order; the
first redis error triggers the final callback, and since done ignores
its error argument the table printed holds exactly the rows read before
that error and show still reports success; an undefined dereference
(short stored list) is an uncaught throw that crashes the process. -/
def showRun (idx : String → Option ContainerDescriptor)
    (read : String → Except String (List String)) : List String → ShowOutcome
  | [] => ShowOutcome.success []
  | k :: rest =>
    match lookupRoute idx read k with
    | Except.ok row =>
      match showRun idx read rest with
      | ShowOutcome.success rows => ShowOutcome.success (row :: rows)
      | ShowOutcome.crash m => ShowOutcome.crash m
    | Except.error (ShowError.storeError _) => ShowOutcome.success []
    | Except.error (ShowError.typeError m) => ShowOutcome.crash m

/-- The two commands of the command-line surface. -/
inductive Command where
  | sync
  | showCmd
deriving DecidableEq

/-- How an invocation ends: either some command called process.exit, or
the whole operation list ran to completion. -/
inductive ProcEnd where
  | exit (code : Nat)
  | completed
deriving DecidableEq

/-- The operations loop of the main block (async.series over the
requested commands): each executed command is recorded; sync threads
the store and terminates the whole process on exitZero or exitOne, so
later commands never run; a crashing show likewise kills the process
(uncaught throw), a successful show continues.  The show command body
is abstracted as showExec, since only whether and when it runs matters
here. -/
def runOps (cfg : Config) (werr : String → String → Option String)
    (showExec : Store → ShowOutcome) (snapshot : List ContainerDescriptor) :
    List Command → Store → List Command × ProcEnd
  | [], _ => ([], ProcEnd.completed)
  | Command.sync :: rest, s =>
    match syncRun cfg werr s snapshot with
    | SyncResult.exitZero _ => ([Command.sync], ProcEnd.exit 0)
    | SyncResult.exitOne _ _ => ([Command.sync], ProcEnd.exit 1)
    | SyncResult.synced s2 =>
      let r := runOps cfg werr showExec snapshot rest s2
      (Command.sync :: r.1, r.2)
  | Command.showCmd :: rest, s =>
    match showExec s with
    | ShowOutcome.crash _ => ([Command.showCmd], ProcEnd.exit 1)
    | ShowOutcome.success _ =>
      let r := runOps cfg werr showExec snapshot rest s
      (Command.showCmd :: r.1, r.2)

/-! Helper lemmas shared by several results. -/

/-- A route write stores exactly the pair of routing key and backend
under the frontend-prefixed key. -/
theorem writeRoute_self (s : Store) (k b : String) :
    writeRoute s k b ("frontend:" ++ k) = [k, b] := by
  simp [writeRoute, redisRpush, redisDel]

/-- A route write leaves every other key untouched. -/
theorem writeRoute_other (s : Store) (k b key : String) (h : key ≠ "frontend:" ++ k) :
    writeRoute s k b key = s key := by
  simp [writeRoute, redisRpush, redisDel, h]

/-- The first-match loop of findHttpPorts agrees with List.find? over
the same predicate. -/
theorem findHttpPortsGo_eq_find? (wp : List String) (ports : List PortBinding) :
    findHttpPortsGo wp ports =
      (ports.find? (fun p => p.PublicPort != 0 && wp.contains (toString p.PrivatePort))).map
        PortBinding.PublicPort := by
  induction ports with
  | nil => rfl
  | cons p ps ih =>
    simp only [findHttpPortsGo]
    cases h : (p.PublicPort != 0 && wp.contains (toString p.PrivatePort)) with
    | true =>
      rw [if_pos rfl,
        List.find?_cons_of_pos
          (p := fun (q : PortBinding) => q.PublicPort != 0 && wp.contains (toString q.PrivatePort)) _ h]
      rfl
    | false =>
      have hne : ¬((p.PublicPort != 0 && wp.contains (toString p.PrivatePort)) = true) :=
        fun hc => Bool.noConfusion (hc.symm.trans h)
      rw [if_neg (by decide : ¬(false = true)),
        List.find?_cons_of_neg
          (p := fun (q : PortBinding) => q.PublicPort != 0 && wp.contains (toString q.PrivatePort)) _ hne, ih]

/-- The first-match loop of lookupContainers agrees with List.find?
over its own predicate, which tests the bind address instead of the
public port. -/
theorem indexPortGo_eq_find? (wp : List String) (ports : List PortBinding) :
    indexPortGo wp ports =
      (ports.find? (fun p => p.IP != "" && wp.contains (toString p.PrivatePort))).map
        PortBinding.PublicPort := by
  induction ports with
  | nil => rfl
  | cons p ps ih =>
    simp only [indexPortGo]
    cases h : (p.IP != "" && wp.contains (toString p.PrivatePort)) with
    | true =>
      rw [if_pos rfl,
        List.find?_cons_of_pos
          (p := fun (q : PortBinding) => q.IP != "" && wp.contains (toString q.PrivatePort)) _ h]
      rfl
    | false =>
      have hne : ¬((p.IP != "" && wp.contains (toString p.PrivatePort)) = true) :=
        fun hc => Bool.noConfusion (hc.symm.trans h)
      rw [if_neg (by decide : ¬(false = true)),
        List.find?_cons_of_neg
          (p := fun (q : PortBinding) => q.IP != "" && wp.contains (toString q.PrivatePort)) _ hne, ih]

/-! Claim results. -/

/-- C4: for every list of port bindings, the Port Selector
(findHttpPorts) returns the public port of the first binding, in given
order, whose private port is a member of the configured web-port set
and whose public port is nonzero, and returns none when no binding
satisfies both conditions.  List.find? is exactly that first-match,
none-if-absent specification. -/
theorem C4_selectPublicPort_spec (cfg : Config) (ports : List PortBinding) :
    findHttpPorts cfg ports =
      (ports.find? (fun p =>
        p.PublicPort != 0 &&
          (jsSplit ',' cfg.webPorts).contains (toString p.PrivatePort))).map
        PortBinding.PublicPort :=
  findHttpPortsGo_eq_find? (jsSplit ',' cfg.webPorts) ports

/-- C3 counterexample: the show command indexes a container binding
under a different rule than the Port Selector.  A binding with an empty
bind address but a published nonzero public port on web private port 80
is selected by findHttpPorts (public port 9001) yet not indexed by the
lookupContainers loop, so the claimed agreement fails on this input. -/
theorem C3_counterexample :
    indexPortGo (jsSplit ',' defaultConfig.webPorts) [⟨"", 80, 9001⟩] = none ∧
    findHttpPortsGo (jsSplit ',' defaultConfig.webPorts) [⟨"", 80, 9001⟩] = some 9001 ∧
    indexPortGo (jsSplit ',' defaultConfig.webPorts) [⟨"", 80, 9001⟩] ≠
      findHttpPortsGo (jsSplit ',' defaultConfig.webPorts) [⟨"", 80, 9001⟩] := by
  refine ⟨rfl, rfl, by decide⟩

/-- C3 amended: the live-container index of show admits, per container,
the first binding whose bind address is nonempty and whose private port
is in the configured web-port set, keyed by its public port; the rule
differs from the Port Selector in testing the bind address rather than
a nonzero public port. -/
theorem C3_amended_index_rule (cfg : Config) (ports : List PortBinding) :
    indexPortGo (jsSplit ',' cfg.webPorts) ports =
      (ports.find? (fun p =>
        p.IP != "" &&
          (jsSplit ',' cfg.webPorts).contains (toString p.PrivatePort))).map
        PortBinding.PublicPort :=
  indexPortGo_eq_find? (jsSplit ',' cfg.webPorts) ports

/-- C6: writing a route for routing key K and backend B (atomic delete
of frontend:K then pushing K and B) and reading that key back yields
exactly the two-element list containing K and B; and any key whose
stored value a write changes is the frontend prefix concatenated with
the first element of the new value, so a route entry written this way
has a first element equal to the routing-key portion of its store
key. -/
theorem C6_route_round_trip :
    (∀ (s : Store) (K B : String), writeRoute s K B ("frontend:" ++ K) = [K, B]) ∧
    (∀ (s : Store) (K B key : String), writeRoute s K B key ≠ s key →
      key = "frontend:" ++ (writeRoute s K B key).headD ("")) := by
  refine ⟨fun s K B => writeRoute_self s K B, fun s K B key h => ?_⟩
  by_cases hk : key = "frontend:" ++ K
  · subst hk
    rw [writeRoute_self]
    rfl
  · exact absurd (writeRoute_other s K B key hk) h

/-- C6 witness: the round trip and the store-key invariant evaluated on
an empty store with routing key a.b.c and backend
http://127.0.0.1:9001. -/
theorem C6_witness :
    (writeRoute (fun _ => []) ("a.b.c") ("http://127.0.0.1:9001") ("frontend:a.b.c") ≠
      (fun _ => ([] : List String)) ("frontend:a.b.c")) ∧
    ("frontend:a.b.c" : String) =
      "frontend:" ++
        (writeRoute (fun _ => []) ("a.b.c") ("http://127.0.0.1:9001")
          ("frontend:a.b.c")).headD ("") :=
  ⟨by decide,
   C6_route_round_trip.2 (fun _ => []) ("a.b.c") ("http://127.0.0.1:9001")
     ("frontend:a.b.c") (by decide)⟩

/-- C1: the claim says the sync command derives routing keys for all
matching exception-map entries (one-to-many).  The code instead returns
from the exception loop at the first matching entry, so with the
default configuration, whose exception map holds two entries for the
image frozenridge/gitbackups, only the first target gitbackups.com is
derived and the entry for www.gitbackups.com is unreachable: evaluated
here at the failing input, both at the key-derivation level and through
the full sync derivation. -/
theorem C1_exception_single_match_eval :
    parseMaps defaultConfig.exceptionMaps =
      [["frozenridge/gitbackups", "gitbackups.com"],
       ["frozenridge/gitbackups", "www.gitbackups.com"]] ∧
    containerKeys (parseMaps defaultConfig.exceptionMaps) (parseMaps defaultConfig.prefixMaps)
      ("frozenridge/gitbackups") = ["gitbackups.com"] ∧
    deriveOps defaultConfig
      [⟨"cgit", "frozenridge/gitbackups", [⟨"0.0.0.0", 8080, 9003⟩], "Up"⟩] =
      Except.ok [(("gitbackups.com"), ("http://127.0.0.1:9003"))] := by
  refine ⟨by decide, by decide, rfl⟩

/-- Keys not targeted by any operation in the list are untouched by
running the operations. -/
theorem applyOps_not_written (key : String) :
    ∀ (ops : List (String × String)) (s : Store),
      (∀ op ∈ ops, "frontend:" ++ op.1 ≠ key) → applyOps s ops key = s key := by
  intro ops
  induction ops with
  | nil => intro s _; rfl
  | cons o rest ih =>
    intro s h
    obtain ⟨k, b⟩ := o
    have hno : "frontend:" ++ k ≠ key := h (k, b) (List.mem_cons_self _ _)
    calc applyOps (writeRoute s k b) rest key
        = writeRoute s k b key := ih _ (fun op hm => h op (List.mem_cons_of_mem _ hm))
      _ = s key := writeRoute_other s k b key (fun hk => hno hk.symm)

/-- The value a run of operations leaves under a key targeted by some
operation in the list does not depend on the initial store. -/
theorem applyOps_written (key : String) :
    ∀ (ops : List (String × String)),
      (∃ op ∈ ops, "frontend:" ++ op.1 = key) →
      ∀ (s t : Store), applyOps s ops key = applyOps t ops key := by
  intro ops
  induction ops with
  | nil => intro h; exact absurd h (by simp)
  | cons o rest ih =>
    intro h s t
    obtain ⟨k, b⟩ := o
    by_cases hrest : ∃ op ∈ rest, "frontend:" ++ op.1 = key
    · exact ih hrest (writeRoute s k b) (writeRoute t k b)
    · have hk : "frontend:" ++ k = key := by
        rcases h with ⟨op, hm, hop⟩
        rcases List.mem_cons.mp hm with h1 | h1
        · rw [h1] at hop; exact hop
        · exact absurd ⟨op, h1, hop⟩ hrest
      have hall : ∀ op ∈ rest, "frontend:" ++ op.1 ≠ key :=
        fun op hm hop => hrest ⟨op, hm, hop⟩
      calc applyOps (writeRoute s k b) rest key
          = writeRoute s k b key := applyOps_not_written key rest _ hall
        _ = [k, b] := by rw [← hk]; exact writeRoute_self s k b
        _ = writeRoute t k b key := by rw [← hk]; exact (writeRoute_self t k b).symm
        _ = applyOps (writeRoute t k b) rest key := (applyOps_not_written key rest _ hall).symm

/-- Running the same operation list twice leaves the same store as
running it once: every targeted key ends at the value of its last
write, every other key is untouched. -/
theorem applyOps_idem (s : Store) (ops : List (String × String)) :
    applyOps (applyOps s ops) ops = applyOps s ops := by
  funext key
  by_cases h : ∃ op ∈ ops, "frontend:" ++ op.1 = key
  · exact applyOps_written key ops h (applyOps s ops) s
  · have hall : ∀ op ∈ ops, "frontend:" ++ op.1 ≠ key := fun op hm hop => h ⟨op, hm, hop⟩
    rw [applyOps_not_written key ops _ hall, applyOps_not_written key ops _ hall]

/-- With no write failures, executing the derived writes is running
them all, with no error. -/
theorem execWrites_noFail :
    ∀ (ops : List (String × String)) (s : Store),
      execWrites (fun _ _ => none) s ops = (applyOps s ops, none) := by
  intro ops
  induction ops with
  | nil => intro s; rfl
  | cons o rest ih =>
    intro s
    obtain ⟨k, b⟩ := o
    exact ih (writeRoute s k b)

/-- C7: running the sync command twice in succession against the same
unchanged container snapshot (and no interleaved writers, modelled by
threading the store of the first run directly into the second, with all
writes succeeding) leaves the store identical to the state after the
first run.  Derivation depends only on configuration and snapshot, so
both runs derive the same operations, and rerunning the same
delete-then-push writes is absorbed by applyOps_idem. -/
theorem C7_sync_idempotent (cfg : Config) (s : Store) (snapshot : List ContainerDescriptor) :
    finalStore (syncRun cfg (fun _ _ => none)
        (finalStore (syncRun cfg (fun _ _ => none) s snapshot)) snapshot) =
      finalStore (syncRun cfg (fun _ _ => none) s snapshot) := by
  cases hd : deriveOps cfg snapshot with
  | error e => simp [syncRun, hd, finalStore]
  | ok ops =>
    cases ops with
    | nil => simp [syncRun, hd, finalStore]
    | cons o rest =>
      simp only [syncRun, hd, execWrites_noFail, finalStore]
      exact applyOps_idem s (o :: rest)

/-- C9: for every store key whose stored list has fewer than two
elements, the per-route lookup of show dereferences the undefined
second element and fails with a TypeError instead of emitting any row
for that key, and running show over that key crashes the command, so
the error branch of show is reachable at the public interface. -/
theorem C9_short_entry_type_error (idx : String → Option ContainerDescriptor)
    (read : String → Except String (List String)) (k : String) (res : List String)
    (hread : read k = Except.ok res) (hlen : res.length < 2) :
    lookupRoute idx read k = Except.error (ShowError.typeError undefinedSplitMsg) ∧
    showRun idx read [k] = ShowOutcome.crash undefinedSplitMsg := by
  have hlr : lookupRoute idx read k = Except.error (ShowError.typeError undefinedSplitMsg) := by
    unfold lookupRoute
    rw [hread]
    cases res with
    | nil => rfl
    | cons a t =>
      cases t with
      | nil => rfl
      | cons b t2 => exact absurd hlen (by simp)
  exact ⟨hlr, by simp [showRun, hlr]⟩

/-- C9 witness: a stored single-element list, read back successfully,
makes lookupRoute fail with the TypeError and crashes show. -/
theorem C9_witness :
    (((fun _ => Except.ok ["only.example.com"]) : String → Except String (List String))
        ("frontend:only.example.com") = Except.ok ["only.example.com"] ∧
      (["only.example.com"] : List String).length < 2) ∧
    (lookupRoute (fun _ => none) (fun _ => Except.ok ["only.example.com"])
        ("frontend:only.example.com") =
        Except.error (ShowError.typeError undefinedSplitMsg) ∧
      showRun (fun _ => none) (fun _ => Except.ok ["only.example.com"])
        [("frontend:only.example.com")] = ShowOutcome.crash undefinedSplitMsg) :=
  ⟨⟨rfl, by decide⟩,
   C9_short_entry_type_error (fun _ => none) (fun _ => Except.ok ["only.example.com"])
     ("frontend:only.example.com") ["only.example.com"] rfl (by decide)⟩

/-- C10: when sync derives zero write operations across the whole
snapshot, it reports that there is nothing to sync and calls
process.exit(0), so the whole invocation ends there with a success
code and any command requested after it, such as a following show, is
never executed: the executed-command trace holds the sync command
alone. -/
theorem C10_nothing_to_sync_exits (cfg : Config) (werr : String → String → Option String)
    (showExec : Store → ShowOutcome) (snapshot : List ContainerDescriptor) (s : Store)
    (rest : List Command) (h : deriveOps cfg snapshot = Except.ok []) :
    runOps cfg werr showExec snapshot (Command.sync :: rest) s =
      ([Command.sync], ProcEnd.exit 0) := by
  have hs : syncRun cfg werr s snapshot = SyncResult.exitZero s := by
    simp [syncRun, h]
  simp [runOps, hs]

/-- C10 witness: a snapshot holding a single container whose image
matches neither map derives zero operations, and the invocation
sync-then-show executes only sync, exiting the process with code 0. -/
theorem C10_witness :
    deriveOps defaultConfig [⟨"u1", "ubuntu", [⟨"0.0.0.0", 8080, 9001⟩], "Up"⟩] =
      Except.ok [] ∧
    runOps defaultConfig (fun _ _ => none) (fun _ => ShowOutcome.success [])
      [⟨"u1", "ubuntu", [⟨"0.0.0.0", 8080, 9001⟩], "Up"⟩]
      [Command.sync, Command.showCmd] (fun _ => []) = ([Command.sync], ProcEnd.exit 0) :=
  ⟨rfl,
   C10_nothing_to_sync_exits defaultConfig (fun _ _ => none) (fun _ => ShowOutcome.success [])
     [⟨"u1", "ubuntu", [⟨"0.0.0.0", 8080, 9001⟩], "Up"⟩] (fun _ => []) [Command.showCmd] rfl⟩

/-- C2 counterexample: the claim says a failed key-value-store
operation always aborts the current command, and in particular that a
failed route-entry read terminates show as an error.  In the code the
done continuation of show ignores its error argument, so with a store
whose second enumerated key fails to read, show still prints the
partial table (one row) and reports success. -/
theorem C2_counterexample :
    (fun k => if k = "frontend:b.example.com" then Except.error ("ECONNRESET")
              else Except.ok [("a.example.com"), ("http://127.0.0.1:9001")])
        ("frontend:b.example.com") = Except.error ("ECONNRESET") ∧
    showRun (fun _ => none)
      (fun k => if k = "frontend:b.example.com" then Except.error ("ECONNRESET")
                else Except.ok [("a.example.com"), ("http://127.0.0.1:9001")])
      [("frontend:a.example.com"), ("frontend:b.example.com")] =
      ShowOutcome.success [(("frontend:a.example.com"), ("http://127.0.0.1:9001"), ("! Down !"))] :=
  ⟨rfl, rfl⟩

/-- C2 amended: a store failure during sync aborts sync with a failure
outcome (the first failed write stops the series and the process exits
with an error), but a failed route-entry read during show does not
abort show: provided no malformed short entry crashes the lookup, show
always completes successfully, printing the rows read before the first
failure and reporting success. -/
theorem C2_store_failure_handling :
    (∀ (cfg : Config) (werr : String → String → Option String) (s : Store)
        (snapshot : List ContainerDescriptor) (ops : List (String × String))
        (s2 : Store) (e : String),
        deriveOps cfg snapshot = Except.ok ops →
        execWrites werr s ops = (s2, some e) →
        syncRun cfg werr s snapshot = SyncResult.exitOne e s2) ∧
    (∀ (idx : String → Option ContainerDescriptor)
        (read : String → Except String (List String)) (keys : List String),
        (∀ k res, k ∈ keys → read k = Except.ok res → 2 ≤ res.length) →
        ∃ rows, showRun idx read keys = ShowOutcome.success rows) := by
  constructor
  · intro cfg werr s snapshot ops s2 e h1 h2
    cases ops with
    | nil => simp [execWrites] at h2
    | cons o rest => simp [syncRun, h1, h2]
  · intro idx read keys h
    induction keys with
    | nil => exact ⟨[], rfl⟩
    | cons k rest ih =>
      have hrest : ∀ k2 res, k2 ∈ rest → read k2 = Except.ok res → 2 ≤ res.length :=
        fun k2 res hm hr => h k2 res (List.mem_cons_of_mem _ hm) hr
      obtain ⟨rows, hrows⟩ := ih hrest
      cases hr : read k with
      | error e =>
        refine ⟨[], ?_⟩
        simp [showRun, lookupRoute, hr]
      | ok res =>
        have hlen := h k res (List.mem_cons_self _ _) hr
        cases res with
        | nil => simp at hlen
        | cons a t =>
          cases t with
          | nil => simp at hlen
          | cons b t2 =>
            have hlr : lookupRoute idx read k =
                Except.ok (k, b,
                  match idx ((jsSplit ':' b).getD 2 ("undefined")) with
                  | some container => container.Status
                  | none => "! Down !") := by
              simp [lookupRoute, hr]
            refine ⟨(k, b,
              match idx ((jsSplit ':' b).getD 2 ("undefined")) with
              | some container => container.Status
              | none => "! Down !") :: rows, ?_⟩
            simp [showRun, hlr, hrows]

/-- C2 witness: the sync half applied to a snapshot of one routed
container with every write failing (sync exits with the store error),
and the show half applied to a store whose reads fail but hold no short
entries (show reports success). -/
theorem C2_witness :
    (deriveOps defaultConfig [⟨"c1", "frozenridge/foo", [⟨"0.0.0.0", 8080, 9001⟩], "Up"⟩] =
        Except.ok [(("foo.frozenridge.co"), ("http://127.0.0.1:9001"))] ∧
      execWrites (fun _ _ => some ("ECONNRESET")) (fun _ => [])
          [(("foo.frozenridge.co"), ("http://127.0.0.1:9001"))] =
          ((fun _ => []), some ("ECONNRESET")) ∧
      syncRun defaultConfig (fun _ _ => some ("ECONNRESET")) (fun _ => [])
          [⟨"c1", "frozenridge/foo", [⟨"0.0.0.0", 8080, 9001⟩], "Up"⟩] =
          SyncResult.exitOne ("ECONNRESET") (fun _ => [])) ∧
    (∃ rows, showRun (fun _ => none) (fun _ => Except.error ("boom"))
        [("frontend:a.example.com")] = ShowOutcome.success rows) :=
  ⟨⟨rfl, rfl,
    C2_store_failure_handling.1 defaultConfig (fun _ _ => some ("ECONNRESET")) (fun _ => [])
      [⟨"c1", "frozenridge/foo", [⟨"0.0.0.0", 8080, 9001⟩], "Up"⟩]
      [(("foo.frozenridge.co"), ("http://127.0.0.1:9001"))] (fun _ => []) ("ECONNRESET")
      rfl rfl⟩,
   C2_store_failure_handling.2 (fun _ => none) (fun _ => Except.error ("boom"))
     [("frontend:a.example.com")] (fun k res hm hr => by simp at hr)⟩

/-- C5: for an image reference whose slash split is a namespace and a
repo part, with no exception-map match on the tag-stripped image, whose
namespace matches a prefix-map entry with target domain, and whose
tag-stripped repo segment is sub: the derived routing keys are exactly
sub.domain, www.domain and the root domain, in that order, when sub is
www or web, and exactly the single key sub.domain otherwise. -/
theorem C5_prefix_route_keys (exM pM : List (List String)) (image ns rest2 sub domain : String)
    (pm : List String)
    (hex : exM.find? (fun e => e.headD ("") == (jsSplit ':' image).headD ("")) = none)
    (himg : jsSplit '/' image = [ns, rest2])
    (hsub : (jsSplit ':' rest2).headD ("") = sub)
    (hpm : pM.find? (fun m => m.headD ("") == ns) = some pm)
    (hdom : pm.getD 1 ("undefined") = domain) :
    containerKeys exM pM image =
      if sub = "www" ∨ sub = "web" then
        [sub ++ "." ++ domain, "www." ++ domain, domain]
      else
        [sub ++ "." ++ domain] := by
  simp only [containerKeys, hex, himg]
  simp only [List.length_cons, List.length_nil, List.headD_cons, List.getD_cons_succ,
    List.getD_cons_zero, hsub, hpm, hdom, if_true]

/-- C5 witness: the triple expansion on frozenridge/www:latest (note
the duplicate www key of the source behaviour) and the single key on
stridercd/foo, both under the default maps. -/
theorem C5_witness :
    containerKeys (parseMaps defaultConfig.exceptionMaps) (parseMaps defaultConfig.prefixMaps)
        ("frozenridge/www:latest") =
      ["www.frozenridge.co", "www.frozenridge.co", "frozenridge.co"] ∧
    containerKeys (parseMaps defaultConfig.exceptionMaps) (parseMaps defaultConfig.prefixMaps)
        ("stridercd/foo") = ["foo.stridercd.com"] :=
  ⟨(C5_prefix_route_keys (parseMaps defaultConfig.exceptionMaps)
      (parseMaps defaultConfig.prefixMaps) ("frozenridge/www:latest") ("frozenridge")
      ("www:latest") ("www") ("frozenridge.co") ["frozenridge", "frozenridge.co"]
      (by decide) (by decide) (by decide) (by decide) (by decide)).trans (by decide),
   (C5_prefix_route_keys (parseMaps defaultConfig.exceptionMaps)
      (parseMaps defaultConfig.prefixMaps) ("stridercd/foo") ("stridercd")
      ("foo") ("foo") ("stridercd.com") ["stridercd", "stridercd.com"]
      (by decide) (by decide) (by decide) (by decide) (by decide)).trans (by decide)⟩

/-- A route derivation for one container fails exactly when the
container has routing keys but no selectable web port, and the error is
the container id. -/
theorem deriveContainer_error_elim (cfg : Config) (c : ContainerDescriptor) (e : String)
    (h : deriveContainer cfg c = Except.error e) :
    containerKeys (parseMaps cfg.exceptionMaps) (parseMaps cfg.prefixMaps) c.Image ≠ [] ∧
    findHttpPorts cfg c.Ports = none ∧ e = c.Id := by
  cases hkeys : containerKeys (parseMaps cfg.exceptionMaps) (parseMaps cfg.prefixMaps) c.Image with
  | nil => simp [deriveContainer, hkeys] at h
  | cons k ks =>
    cases hp : findHttpPorts cfg c.Ports with
    | none =>
      simp only [deriveContainer, hkeys, hp] at h
      exact ⟨by simp [hkeys], rfl, (Except.error.injEq _ _).mp h.symm⟩
    | some port => simp [deriveContainer, hkeys, hp] at h

/-- A container with routing keys but no selectable web port makes its
route derivation fail with its id. -/
theorem deriveContainer_offender (cfg : Config) (c : ContainerDescriptor)
    (hk : containerKeys (parseMaps cfg.exceptionMaps) (parseMaps cfg.prefixMaps) c.Image ≠ [])
    (hp : findHttpPorts cfg c.Ports = none) :
    deriveContainer cfg c = Except.error c.Id := by
  cases hkeys : containerKeys (parseMaps cfg.exceptionMaps) (parseMaps cfg.prefixMaps) c.Image with
  | nil => exact absurd hkeys hk
  | cons k ks => simp [deriveContainer, hkeys, hp]

/-- If some container in the snapshot has routing keys but no
selectable web port, the whole derivation fails with the id of such a
container (the first one, in snapshot order). -/
theorem deriveOps_offender (cfg : Config) (snapshot : List ContainerDescriptor)
    (c : ContainerDescriptor) (hc : c ∈ snapshot)
    (hk : containerKeys (parseMaps cfg.exceptionMaps) (parseMaps cfg.prefixMaps) c.Image ≠ [])
    (hp : findHttpPorts cfg c.Ports = none) :
    ∃ c2, c2 ∈ snapshot ∧
      containerKeys (parseMaps cfg.exceptionMaps) (parseMaps cfg.prefixMaps) c2.Image ≠ [] ∧
      findHttpPorts cfg c2.Ports = none ∧
      deriveOps cfg snapshot = Except.error c2.Id := by
  revert hc
  induction snapshot with
  | nil => intro hc; cases hc
  | cons a rest ih =>
    intro hc
    cases hda : deriveContainer cfg a with
    | error e =>
      obtain ⟨hka, hpa, hea⟩ := deriveContainer_error_elim cfg a e hda
      refine ⟨a, List.mem_cons_self a rest, hka, hpa, ?_⟩
      simp [deriveOps, hda, hea]
    | ok ops =>
      have hcr : c ∈ rest := by
        rcases List.mem_cons.mp hc with h1 | h1
        · subst h1
          have hcontr := (deriveContainer_offender cfg c hk hp).symm.trans hda
          exact Except.noConfusion hcontr
        · exact h1
      obtain ⟨c2, hm, hk2, hp2, hd2⟩ := ih hcr
      refine ⟨c2, List.mem_cons_of_mem a hm, hk2, hp2, ?_⟩
      simp [deriveOps, hda, hd2]

/-- C8: whenever a container in the snapshot has derived routing keys
but the Port Selector returns none for its bindings, sync halts
immediately with a fatal error reporting the id of an offending
container: the derivation fails before any write is executed, the exit
happens for every write-error oracle, and the store is left exactly as
it was (no skip-and-continue). -/
theorem C8_missing_port_fail_fast (cfg : Config) (snapshot : List ContainerDescriptor)
    (c : ContainerDescriptor) (hc : c ∈ snapshot)
    (hk : containerKeys (parseMaps cfg.exceptionMaps) (parseMaps cfg.prefixMaps) c.Image ≠ [])
    (hp : findHttpPorts cfg c.Ports = none) :
    ∃ c2, c2 ∈ snapshot ∧
      containerKeys (parseMaps cfg.exceptionMaps) (parseMaps cfg.prefixMaps) c2.Image ≠ [] ∧
      findHttpPorts cfg c2.Ports = none ∧
      deriveOps cfg snapshot = Except.error c2.Id ∧
      ∀ (werr : String → String → Option String) (s : Store),
        syncRun cfg werr s snapshot = SyncResult.exitOne c2.Id s := by
  obtain ⟨c2, hm, hk2, hp2, hd⟩ := deriveOps_offender cfg snapshot c hc hk hp
  exact ⟨c2, hm, hk2, hp2, hd, fun werr s => by simp [syncRun, hd]⟩

/-- C8 witness: one container whose image derives a routing key but
that exposes no port at all makes the whole sync exit fatally with that
container id, leaving the store untouched. -/
theorem C8_witness :
    ((⟨"deadbeef", "frozenridge/foo", [], "Up"⟩ : ContainerDescriptor) ∈
        [(⟨"deadbeef", "frozenridge/foo", [], "Up"⟩ : ContainerDescriptor)] ∧
      containerKeys (parseMaps defaultConfig.exceptionMaps) (parseMaps defaultConfig.prefixMaps)
        (ContainerDescriptor.Image ⟨"deadbeef", "frozenridge/foo", [], "Up"⟩) ≠ [] ∧
      findHttpPorts defaultConfig
        (ContainerDescriptor.Ports ⟨"deadbeef", "frozenridge/foo", [], "Up"⟩) = none) ∧
    (∃ c2, c2 ∈ [(⟨"deadbeef", "frozenridge/foo", [], "Up"⟩ : ContainerDescriptor)] ∧
      containerKeys (parseMaps defaultConfig.exceptionMaps) (parseMaps defaultConfig.prefixMaps)
        c2.Image ≠ [] ∧
      findHttpPorts defaultConfig c2.Ports = none ∧
      deriveOps defaultConfig [⟨"deadbeef", "frozenridge/foo", [], "Up"⟩] =
        Except.error c2.Id ∧
      ∀ (werr : String → String → Option String) (s : Store),
        syncRun defaultConfig werr s [⟨"deadbeef", "frozenridge/foo", [], "Up"⟩] =
          SyncResult.exitOne c2.Id s) :=
  ⟨⟨by decide, by decide, by decide⟩,
   C8_missing_port_fail_fast defaultConfig
     [⟨"deadbeef", "frozenridge/foo", [], "Up"⟩] ⟨"deadbeef", "frozenridge/foo", [], "Up"⟩
     (by decide) (by decide) (by decide)⟩

end Dockerfu
